import Mathlib

/-!
Verification of `czech-addresses` (`src/src/lib.rs`) against its specification.

Shallow embedding of the crate's single public operation
`parse_addresses_from_csv` and its helpers.

Modelling boundary: the Rust function receives an `impl Read + Seek` byte
source and immediately hands it to `zip::ZipArchive::new`, reading each
entry's decompressed bytes through `zip.by_index(i)`.  The ZIP container
format itself is third-party library territory, so the embedding starts at
that boundary: an archive is either a ZIP-open failure or the list of its
entries (declared size plus the outcome of materialising the entry's raw
decompressed bytes).  Everything downstream of that boundary — the
Windows-1250 byte decoding (`encoding_rs` / `encoding_rs_io`), the
semicolon-delimited CSV reading (`csv` crate, `has_headers(true)`,
`flexible` off), the serde field mapping by header name onto `Address`,
and the `address_date_format` deserializer built on chrono's
`DateTime::<Utc>::from_str` — is embedded as executable Lean functions.

Library behaviour embedded from the libraries' documented semantics:
* `encoding_rs::WINDOWS_1250` follows the WHATWG encoding standard's
  windows-1250 index, which is total: every byte 0x00–0xFF decodes to a
  character (the five bytes left undefined by Microsoft's cp1250 — 0x81,
  0x83, 0x88, 0x90, 0x98 — map to the C1 controls U+0081, U+0083, U+0088,
  U+0090, U+0098).  `encoding_rs_io`'s reader decodes lossily, so the
  decode stage can never produce an error.  (BOM sniffing of UTF-8/UTF-16
  prefixes is not modelled; no claim concerns BOM-prefixed entries.)
* the `csv` crate's reader with delimiter `b';'`: records are terminated
  by LF, CR or CRLF, a double quote opens a quoted field only at the start
  of a field, `""` inside a quoted field is a literal quote, blank lines
  are skipped, and with `flexible` off every data record must have the
  same number of fields as the header record (`UnequalLengths` otherwise).
* serde struct deserialization with headers: each cell is associated to
  the header cell of its column and matched against the `#[serde(rename)]`
  names; unknown columns are ignored, a missing required column is a
  `missing field` error, a duplicated known column is a `duplicate field`
  error, `Option` fields treat a missing column or an empty cell as
  `None`, and a non-empty cell must parse to the field's type.
* chrono's `DateTime::<Utc>::from_str` parses (relaxed) RFC 3339: full
  date, a `T`/`t`/space separator, a full time, an optional fractional
  part and a mandatory numeric or `Z` offset.  A bare `YYYY-MM-DD` date is
  not accepted.  (chrono's tolerance for stray spaces inside the date and
  time components, short digit runs, and leap seconds is not modelled; no
  claim depends on those relaxations.)
* Rust's `u32`/`u64` `FromStr`: an optional leading `+`, one or more ASCII
  digits, and an overflow check; `f32` `FromStr`: optional sign, `inf`,
  `infinity`, `nan` (ASCII case-insensitive) or a decimal mantissa with
  optional fraction and exponent.  The numeric value of a parsed `f32` is
  kept as the exact decimal rational; IEEE-754 rounding to binary32 is not
  modelled (no claim compares coordinate values numerically).
-/

/-- Error of `zip::ZipArchive::new` / `zip::ZipArchive::by_index` (opaque payload). -/
inductive ZipError where
  | fault (msg : String) : ZipError
deriving DecidableEq, Repr

/-- Errors of the `csv` crate surfaced by `rdr.deserialize()`:
structural record-length mismatches and serde-level field errors. -/
inductive CsvError where
  | unequalLengths (expected got : Nat) : CsvError
  | missingField (name : String) : CsvError
  | invalidField (name value : String) : CsvError
  | duplicateField (name : String) : CsvError
deriving DecidableEq, Repr

/-- The crate's `AddressError` / the `anyhow` error of
`parse_addresses_from_csv`: IO, ZIP or CSV failure.  The model performs no
real IO, so the IO variant is never produced; note there is no
character-decoding variant — decoding is infallible. -/
inductive AddressError where
  | ioFault : AddressError
  | zip (e : ZipError) : AddressError
  | csv (e : CsvError) : AddressError
deriving DecidableEq, Repr

/-- Value of a parsed Rust `f32` cell.  `finite neg m e` carries the
exact decimal value `(-1)^neg * m * 10^e` of the literal (sign kept
separately, as `f32` distinguishes `-0.0` from `0.0`); rounding to
binary32 is outside the model. -/
inductive F32Val where
  | nan : F32Val
  | inf (neg : Bool) : F32Val
  | finite (neg : Bool) (mantissa : Nat) (exp : Int) : F32Val
deriving DecidableEq, Repr

/-- A chrono `DateTime<Utc>`: seconds since the Unix epoch plus a
nanosecond subsecond part. -/
structure UtcInstant where
  sec : Int
  nano : Nat
deriving DecidableEq, Repr

/-- The crate's `Address` record (`struct Address` in `src/src/lib.rs`),
fields in source order.  Rust `u32`/`u64` values are represented as `Nat`
with the bound enforced at parse time. -/
structure Address where
  adm_code : Nat
  town_code : Nat
  town : String
  city_part_code : Option Nat
  city_part : Option String
  prague_part_code : Option Nat
  prague_part : Option String
  town_part_code : Nat
  town_part : String
  street_code : Option Nat
  street : Option String
  object_type : String
  number : Nat
  orientation_number : Option Nat
  orientation_number_sign : Option String
  zip_code : Nat
  location_x : Option F32Val
  location_y : Option F32Val
  valid_since : UtcInstant
deriving DecidableEq, Repr

/-- One archive entry as exposed by the `zip` crate: its declared
uncompressed size and the outcome of materialising its raw bytes
(`by_index` plus the read may fail with a ZIP error). -/
structure ZipEntry where
  size : Nat
  data : Except ZipError (List Nat)
deriving Repr

/-- The WHATWG windows-1250 index: code points for bytes 0x80–0xFF.
Bytes undefined in Microsoft's cp1250 (0x81, 0x83, 0x88, 0x90, 0x98) map
to the corresponding C1 controls, making the table total. -/
def windows1250High : List Nat :=
  [0x20AC, 0x0081, 0x201A, 0x0083, 0x201E, 0x2026, 0x2020, 0x2021,
   0x0088, 0x2030, 0x0160, 0x2039, 0x015A, 0x0164, 0x017D, 0x0179,
   0x0090, 0x2018, 0x2019, 0x201C, 0x201D, 0x2022, 0x2013, 0x2014,
   0x0098, 0x2122, 0x0161, 0x203A, 0x015B, 0x0165, 0x017E, 0x017A,
   0x00A0, 0x02C7, 0x02D8, 0x0141, 0x00A4, 0x0104, 0x00A6, 0x00A7,
   0x00A8, 0x00A9, 0x015E, 0x00AB, 0x00AC, 0x00AD, 0x00AE, 0x017B,
   0x00B0, 0x00B1, 0x02DB, 0x0142, 0x00B4, 0x00B5, 0x00B6, 0x00B7,
   0x00B8, 0x0105, 0x015F, 0x00BB, 0x013D, 0x02DD, 0x013E, 0x017C,
   0x0154, 0x00C1, 0x00C2, 0x0102, 0x00C4, 0x0139, 0x0106, 0x00C7,
   0x010C, 0x00C9, 0x0118, 0x00CB, 0x011A, 0x00CD, 0x00CE, 0x010E,
   0x0110, 0x0143, 0x0147, 0x00D3, 0x00D4, 0x0150, 0x00D6, 0x00D7,
   0x0158, 0x016E, 0x00DA, 0x0170, 0x00DC, 0x00DD, 0x0162, 0x00DF,
   0x0155, 0x00E1, 0x00E2, 0x0103, 0x00E4, 0x013A, 0x0107, 0x00E7,
   0x010D, 0x00E9, 0x0119, 0x00EB, 0x011B, 0x00ED, 0x00EE, 0x010F,
   0x0111, 0x0144, 0x0148, 0x00F3, 0x00F4, 0x0151, 0x00F6, 0x00F7,
   0x0159, 0x016F, 0x00FA, 0x0171, 0x00FC, 0x00FD, 0x0163, 0x02D9]

/-- Decode one byte under `encoding_rs::WINDOWS_1250`.  Total: ASCII bytes
map to themselves, high bytes through the WHATWG index. -/
def windows1250DecodeByte (b : Nat) : Char :=
  let b := b % 256
  if b < 0x80 then Char.ofNat b
  else Char.ofNat (windows1250High.getD (b - 0x80) 0xFFFD)

/-- Decode a whole entry's byte buffer (the `DecodeReaderBytes` stage of
`parse_addresses_from_csv`).  Lossy decoding never fails, so this is a
total function. -/
def windows1250Decode (bs : List Nat) : List Char :=
  bs.map windows1250DecodeByte

/-- Numeric value of a run of ASCII digits. -/
def digitsVal (ds : List Char) : Nat :=
  ds.foldl (fun a c => a * 10 + (c.toNat - 48)) 0

/-- Split a leading run of ASCII digits from the rest. -/
def takeDigits : List Char → (List Char × List Char)
  | [] => ([], [])
  | c :: rest =>
    if c.isDigit then
      let (d, r) := takeDigits rest
      (c :: d, r)
    else ([], c :: rest)

/-- Rust's unsigned-integer `FromStr` (used by serde for `u32`/`u64`
cells): optional leading `+`, one or more ASCII digits, overflow
rejected. -/
def parseUnsigned (bound : Nat) (s : String) : Option Nat :=
  let cs := match s.toList with
    | '+' :: t => t
    | t => t
  if cs.isEmpty then none
  else if cs.all Char.isDigit then
    if digitsVal cs < bound then some (digitsVal cs) else none
  else none

/-- `u32::from_str`. -/
def parseU32 (s : String) : Option Nat := parseUnsigned (2 ^ 32) s

/-- `u64::from_str`. -/
def parseU64 (s : String) : Option Nat := parseUnsigned (2 ^ 64) s

/-- ASCII lower-casing, as used by Rust's `f32` parser for `inf`/`NaN`. -/
def asciiLower (c : Char) : Char :=
  if 'A' ≤ c ∧ c ≤ 'Z' then Char.ofNat (c.toNat + 32) else c

/-- Rust's `f32::from_str` grammar: optional sign, `inf`/`infinity`/`nan`
(ASCII case-insensitive), or `digits[.digits][(e|E)[sign]digits]` with at
least one mantissa digit.  The finite value is kept exact (see header
comment on rounding). -/
def parseF32 (s : String) : Option F32Val :=
  let (neg, cs) : Bool × List Char := match s.toList with
    | '+' :: t => (false, t)
    | '-' :: t => (true, t)
    | t => (false, t)
  let low := cs.map asciiLower
  if low = ['i', 'n', 'f'] ∨ low = ['i', 'n', 'f', 'i', 'n', 'i', 't', 'y'] then
    some (.inf neg)
  else if low = ['n', 'a', 'n'] then some .nan
  else
    let (ip, rest) := takeDigits cs
    let (fp, rest2) : List Char × List Char := match rest with
      | '.' :: t => takeDigits t
      | _ => ([], rest)
    if ip.isEmpty ∧ fp.isEmpty then none
    else
      match rest2 with
      | [] => some (.finite neg (digitsVal (ip ++ fp)) (-(fp.length : Int)))
      | e :: t =>
        if asciiLower e = 'e' then
          let (eneg, t2) : Bool × List Char := match t with
            | '+' :: u => (false, u)
            | '-' :: u => (true, u)
            | u => (false, u)
          let (ed, t3) := takeDigits t2
          if ed.isEmpty ∨ ¬t3.isEmpty then none
          else
            let ev : Int := if eneg then -(digitsVal ed : Int) else (digitsVal ed : Int)
            some (.finite neg (digitsVal (ip ++ fp)) (ev - (fp.length : Int)))
        else none

/-- Value of one ASCII digit, or `none`. -/
def digitVal (c : Char) : Option Nat :=
  if c.isDigit then some (c.toNat - 48) else none

/-- Exactly two ASCII digits. -/
def parse2Digits : List Char → Option (Nat × List Char)
  | a :: b :: rest =>
    match digitVal a, digitVal b with
    | some x, some y => some (10 * x + y, rest)
    | _, _ => none
  | _ => none

/-- Exactly four ASCII digits. -/
def parse4Digits (cs : List Char) : Option (Nat × List Char) :=
  match parse2Digits cs with
  | none => none
  | some (hi, r) =>
    match parse2Digits r with
    | none => none
    | some (lo, r2) => some (100 * hi + lo, r2)

/-- Consume one expected character. -/
def expectChar (c : Char) : List Char → Option (List Char)
  | x :: rest => if x = c then some rest else none
  | [] => none

/-- Proleptic-Gregorian leap year. -/
def isLeapYear (y : Int) : Bool :=
  y % 4 = 0 && (y % 100 ≠ 0 || y % 400 = 0)

/-- Days in a month of the proleptic Gregorian calendar. -/
def daysInMonth (y : Int) (m : Nat) : Nat :=
  if m = 2 then (if isLeapYear y then 29 else 28)
  else if m = 4 ∨ m = 6 ∨ m = 9 ∨ m = 11 then 30
  else 31

/-- Days from 1970-01-01 to the given civil date (standard
days-from-civil computation, as performed inside chrono). -/
def daysFromCivil (y : Int) (m d : Nat) : Int :=
  let y' := if m ≤ 2 then y - 1 else y
  let era : Int := (if 0 ≤ y' then y' else y' - 399) / 400
  let yoe : Int := y' - era * 400
  let mp : Int := ((m : Int) + 9) % 12
  let doy : Int := (153 * mp + 2) / 5 + (d : Int) - 1
  let doe : Int := yoe * 365 + yoe / 4 - yoe / 100 + doy
  era * 146097 + doe - 719468

/-- Nanoseconds from a fractional-seconds digit run (chrono keeps the
first nine digits). -/
def nanosOfDigits (ds : List Char) : Nat :=
  let d9 := ds.take 9
  digitsVal d9 * 10 ^ (9 - d9.length)

/-- Optional fractional-second part: `.` or `,` followed by at least one
digit; absent is zero nanoseconds. -/
def parseFrac : List Char → Option (Nat × List Char)
  | [] => some (0, [])
  | c :: rest =>
    if c = '.' ∨ c = ',' then
      let (ds, r) := takeDigits rest
      if ds.isEmpty then none else some (nanosOfDigits ds, r)
    else some (0, c :: rest)

/-- Numeric timezone offset `HH[:]MM`, in seconds. -/
def parseOffsetNum (neg : Bool) (cs : List Char) : Option (Int × List Char) :=
  match parse2Digits cs with
  | none => none
  | some (h, r) =>
    let r2 : List Char := match r with
      | ':' :: t => t
      | t => t
    match parse2Digits r2 with
    | none => none
    | some (mi, r3) =>
      let v : Int := (h : Int) * 3600 + (mi : Int) * 60
      some (if neg then -v else v, r3)

/-- RFC 3339 timezone offset: `Z`/`z` or a signed numeric offset. -/
def parseOffset : List Char → Option (Int × List Char)
  | 'Z' :: rest => some (0, rest)
  | 'z' :: rest => some (0, rest)
  | '+' :: rest => parseOffsetNum false rest
  | '-' :: rest => parseOffsetNum true rest
  | _ => none

/-- chrono's `DateTime::<Utc>::from_str`: relaxed RFC 3339 — full date,
`T`/`t`/space separator, `HH:MM:SS`, optional fraction, mandatory offset,
then only trailing whitespace.  A date with no time part is rejected. -/
def chronoDateTimeUtcFromStr (s : String) : Option UtcInstant :=
  match parse4Digits s.toList with
  | none => none
  | some (y, r1) =>
    match expectChar '-' r1 with
    | none => none
    | some r2 =>
      match parse2Digits r2 with
      | none => none
      | some (mo, r3) =>
        match expectChar '-' r3 with
        | none => none
        | some r4 =>
          match parse2Digits r4 with
          | none => none
          | some (d, r5) =>
            match r5 with
            | [] => none
            | sep :: r6 =>
              if sep = 'T' ∨ sep = 't' ∨ sep = ' ' then
                match parse2Digits r6 with
                | none => none
                | some (h, r7) =>
                  match expectChar ':' r7 with
                  | none => none
                  | some r8 =>
                    match parse2Digits r8 with
                    | none => none
                    | some (mi, r9) =>
                      match expectChar ':' r9 with
                      | none => none
                      | some r10 =>
                        match parse2Digits r10 with
                        | none => none
                        | some (sec, r11) =>
                          match parseFrac r11 with
                          | none => none
                          | some (nano, r12) =>
                            match parseOffset r12 with
                            | none => none
                            | some (off, r13) =>
                              if r13.all (·.isWhitespace) then
                                if 1 ≤ mo ∧ mo ≤ 12 ∧ 1 ≤ d ∧ d ≤ daysInMonth (y : Int) mo
                                    ∧ h ≤ 23 ∧ mi ≤ 59 ∧ sec ≤ 59 then
                                  some ⟨daysFromCivil (y : Int) mo d * 86400
                                          + (h : Int) * 3600 + (mi : Int) * 60 + (sec : Int)
                                          - off,
                                        nano⟩
                                else none
                              else none
              else none

/-- The crate's `address_date_format::deserialize`: take the cell string,
`push('Z')`, and parse with `DateTime::<Utc>::from_str`; a parse failure
becomes a row-level serde error (`none` here). -/
def address_date_format_deserialize (s : String) : Option UtcInstant :=
  chronoDateTimeUtcFromStr (s ++ "Z")

/-- Lexer mode of the CSV reader: inside an unquoted field, inside a
quoted field, or just past a quote inside a quoted field. -/
inductive CsvMode where
  | plain : CsvMode
  | quoted : CsvMode
  | postQuote : CsvMode
deriving DecidableEq, Repr

/-- Close the current record; the `csv` crate skips blank lines, i.e. a
record that consumed nothing. -/
def csvCloseRecord (f : List Char) (rec : List String) (touched : Bool)
    (out : List (List String)) : List (List String) :=
  if touched then out ++ [rec ++ [String.mk f.reverse]] else out

/-- The `csv` crate's record lexer with delimiter `;`: LF/CR/CRLF record
terminators, quoting with `"` recognised only at field start, `""` as an
escaped quote inside a quoted field, lenient re-entry after a closing
quote, blank lines skipped.  `f` is the current field (reversed), `rec`
the fields of the current record, `touched` whether the current record
consumed any input, `out` the finished records. -/
def csvLexAux : List Char → CsvMode → List Char → List String → Bool →
    List (List String) → List (List String)
  | [], _, f, rec, touched, out => csvCloseRecord f rec touched out
  | ';' :: rest, .plain, f, rec, _, out =>
    csvLexAux rest .plain [] (rec ++ [String.mk f.reverse]) true out
  | '\r' :: '\n' :: rest, .plain, f, rec, touched, out =>
    csvLexAux rest .plain [] [] false (csvCloseRecord f rec touched out)
  | '\r' :: rest, .plain, f, rec, touched, out =>
    csvLexAux rest .plain [] [] false (csvCloseRecord f rec touched out)
  | '\n' :: rest, .plain, f, rec, touched, out =>
    csvLexAux rest .plain [] [] false (csvCloseRecord f rec touched out)
  | '"' :: rest, .plain, f, rec, _, out =>
    if f.isEmpty then csvLexAux rest .quoted f rec true out
    else csvLexAux rest .plain ('"' :: f) rec true out
  | c :: rest, .plain, f, rec, _, out =>
    csvLexAux rest .plain (c :: f) rec true out
  | '"' :: rest, .quoted, f, rec, _, out =>
    csvLexAux rest .postQuote f rec true out
  | c :: rest, .quoted, f, rec, _, out =>
    csvLexAux rest .quoted (c :: f) rec true out
  | '"' :: rest, .postQuote, f, rec, _, out =>
    csvLexAux rest .quoted ('"' :: f) rec true out
  | ';' :: rest, .postQuote, f, rec, _, out =>
    csvLexAux rest .plain [] (rec ++ [String.mk f.reverse]) true out
  | '\r' :: '\n' :: rest, .postQuote, f, rec, touched, out =>
    csvLexAux rest .plain [] [] false (csvCloseRecord f rec touched out)
  | '\r' :: rest, .postQuote, f, rec, touched, out =>
    csvLexAux rest .plain [] [] false (csvCloseRecord f rec touched out)
  | '\n' :: rest, .postQuote, f, rec, touched, out =>
    csvLexAux rest .plain [] [] false (csvCloseRecord f rec touched out)
  | c :: rest, .postQuote, f, rec, _, out =>
    csvLexAux rest .plain (c :: f) rec true out

/-- All records of a decoded entry, in order (header first when the entry
is non-empty). -/
def csvRecords (cs : List Char) : List (List String) :=
  csvLexAux cs .plain [] [] false []

/-- The 19 `#[serde(rename = ...)]` column names of `Address`, in struct
field order. -/
def fieldNames : List String :=
  ["Kód ADM", "Kód obce", "Název obce", "Kód MOMC", "Název MOMC",
   "Kód obvodu Prahy", "Název obvodu Prahy", "Kód části obce",
   "Název části obce", "Kód ulice", "Název ulice", "Typ SO",
   "Číslo domovní", "Číslo orientační", "Znak čísla orientačního", "PSČ",
   "Souřadnice X", "Souřadnice Y", "Platí Od"]

/-- The column names of the non-`Option` fields of `Address`. -/
def requiredNames : List String :=
  ["Kód ADM", "Kód obce", "Název obce", "Kód části obce",
   "Název části obce", "Typ SO", "Číslo domovní", "PSČ", "Platí Od"]

/-- Cell of the column whose header cell equals `name` (serde's by-name
field lookup over the header/cell pairs of one record). -/
def getCell (pairs : List (String × String)) (name : String) : Option String :=
  (pairs.find? (fun p => p.1 = name)).map Prod.snd

/-- serde's duplicate-field detection: a known column name occurring
twice in the header is an error. -/
def dupCheck (pairs : List (String × String)) : Except CsvError Unit :=
  match fieldNames.find? (fun n => 2 ≤ pairs.countP (fun p => p.1 = n)) with
  | some n => .error (.duplicateField n)
  | none => .ok ()

/-- A required field: the column must exist and its cell must coerce. -/
def reqField {β : Type} (p : String → Option β) (pairs : List (String × String))
    (name : String) : Except CsvError β :=
  match getCell pairs name with
  | none => .error (.missingField name)
  | some s =>
    match p s with
    | none => .error (.invalidField name s)
    | some v => .ok v

/-- An `Option` field: a missing column or an empty cell is `none`; a
non-empty cell must coerce or the row fails. -/
def optField {β : Type} (p : String → Option β) (pairs : List (String × String))
    (name : String) : Except CsvError (Option β) :=
  match getCell pairs name with
  | none => .ok none
  | some s =>
    if s = "" then .ok none
    else
      match p s with
      | none => .error (.invalidField name s)
      | some v => .ok (some v)

/-- serde deserialization of one record's header/cell pairs into
`Address`.  (serde reports the first bad cell in record order; the model
checks fields in struct order, which selects the same ok/error outcome,
possibly naming a different offending field.) -/
def deserializePairs (pairs : List (String × String)) : Except CsvError Address :=
  Except.bind (dupCheck pairs) fun _ =>
  Except.bind (reqField parseU32 pairs "Kód ADM") fun adm_code =>
  Except.bind (reqField parseU32 pairs "Kód obce") fun town_code =>
  Except.bind (reqField some pairs "Název obce") fun town =>
  Except.bind (optField parseU64 pairs "Kód MOMC") fun city_part_code =>
  Except.bind (optField some pairs "Název MOMC") fun city_part =>
  Except.bind (optField parseU64 pairs "Kód obvodu Prahy") fun prague_part_code =>
  Except.bind (optField some pairs "Název obvodu Prahy") fun prague_part =>
  Except.bind (reqField parseU32 pairs "Kód části obce") fun town_part_code =>
  Except.bind (reqField some pairs "Název části obce") fun town_part =>
  Except.bind (optField parseU32 pairs "Kód ulice") fun street_code =>
  Except.bind (optField some pairs "Název ulice") fun street =>
  Except.bind (reqField some pairs "Typ SO") fun object_type =>
  Except.bind (reqField parseU32 pairs "Číslo domovní") fun number =>
  Except.bind (optField parseU32 pairs "Číslo orientační") fun orientation_number =>
  Except.bind (optField some pairs "Znak čísla orientačního") fun orientation_number_sign =>
  Except.bind (reqField parseU32 pairs "PSČ") fun zip_code =>
  Except.bind (optField parseF32 pairs "Souřadnice X") fun location_x =>
  Except.bind (optField parseF32 pairs "Souřadnice Y") fun location_y =>
  Except.bind (reqField address_date_format_deserialize pairs "Platí Od") fun valid_since =>
  Except.ok { adm_code, town_code, town, city_part_code, city_part,
              prague_part_code, prague_part, town_part_code, town_part,
              street_code, street, object_type, number, orientation_number,
              orientation_number_sign, zip_code, location_x, location_y,
              valid_since }

/-- One data record: the `csv` reader first enforces (with `flexible`
off) that the record has as many fields as the header, then serde maps
cells to fields by header name. -/
def deserializeRow (header row : List String) : Except CsvError Address :=
  if row.length = header.length then deserializePairs (header.zip row)
  else .error (.unequalLengths header.length row.length)

/-- `rdr.deserialize().collect::<Result<Vec<_>, _>>()`: every data row in
order, stopping at the first failure. -/
def parseRows (header : List String) : List (List String) → Except CsvError (List Address)
  | [] => .ok []
  | r :: rs =>
    Except.bind (deserializeRow header r) fun a =>
    Except.bind (parseRows header rs) fun rest =>
    Except.ok (a :: rest)

/-- Decode and parse one entry's bytes: Windows-1250 decode, CSV lexing,
header consumption (`has_headers(true)`), then per-row deserialization.
An entry with no records at all yields no addresses. -/
def parseEntry (bytes : List Nat) : Except CsvError (List Address) :=
  match csvRecords (windows1250Decode bytes) with
  | [] => .ok []
  | header :: rows => parseRows header rows

/-- Outcome of the loop body for one entry: materialise its bytes
(`zip.by_index(i)?`) and parse them (`...collect()?`). -/
def entryResult (e : ZipEntry) : Except AddressError (List Address) :=
  match e.data with
  | .error z => .error (.zip z)
  | .ok bytes =>
    match parseEntry bytes with
    | .error c => .error (.csv c)
    | .ok recs => .ok recs

/-- The `for i in 0..zip.len()` loop of `parse_addresses_from_csv`:
entries in enumeration (index) order, `addresses.extend(...)` on success,
early return on the first error. -/
def parseEntriesAux : List ZipEntry → Except AddressError (List Address)
  | [] => .ok []
  | e :: es =>
    Except.bind (entryResult e) fun recs =>
    Except.bind (parseEntriesAux es) fun rest =>
    Except.ok (recs ++ rest)

/-- The crate's public operation `parse_addresses_from_csv`, from the
ZIP-open boundary on: a failed `zip::ZipArchive::new` aborts with a ZIP
error; otherwise the entries are processed sequentially in index order. -/
def parse_addresses_from_csv (source : Except ZipError (List ZipEntry)) :
    Except AddressError (List Address) :=
  match source with
  | .error e => .error (.zip e)
  | .ok entries => parseEntriesAux entries

/-- Modelled from the spec (§4.4 Work Distributor, absent from the
source): insert an entry into a size-descending list, keeping it stable. -/
def specInsertBySize (e : ZipEntry) : List ZipEntry → List ZipEntry
  | [] => [e]
  | x :: xs => if x.size < e.size then e :: x :: xs else x :: specInsertBySize e xs

/-- Modelled from the spec (§4.4 Work Distributor, absent from the
source): "given all entries, sort them by declared size descending before
dispatch".  Used to compare the spec's prescribed processing order with
the source's enumeration order. -/
def specSortBySizeDesc : List ZipEntry → List ZipEntry
  | [] => []
  | e :: es => specInsertBySize e (specSortBySizeDesc es)

instance {ε α : Type} [DecidableEq ε] [DecidableEq α] : DecidableEq (Except ε α) := fun x y =>
  match x, y with
  | .ok a, .ok b =>
    if h : a = b then isTrue (by rw [h]) else isFalse fun hh => h (Except.ok.inj hh)
  | .error a, .error b =>
    if h : a = b then isTrue (by rw [h]) else isFalse fun hh => h (Except.error.inj hh)
  | .ok _, .error _ => isFalse fun hh => Except.noConfusion hh
  | .error _, .ok _ => isFalse fun hh => Except.noConfusion hh

/-- Test-fixture encoder: the Windows-1250 byte of a character (ASCII plus
the Czech letters used by the fixtures below).  Inverse of
`windows1250DecodeByte` on its outputs, checked concretely per fixture. -/
def w1250EncodeChar (c : Char) : Nat :=
  if c.toNat < 128 then c.toNat
  else match c with
  | 'ó' => 0xF3 | 'á' => 0xE1 | 'í' => 0xED | 'é' => 0xE9 | 'ě' => 0xEC
  | 'š' => 0x9A | 'č' => 0xE8 | 'ř' => 0xF8 | 'ž' => 0x9E | 'ý' => 0xFD
  | 'ů' => 0xF9 | 'ú' => 0xFA | 'Č' => 0xC8 | 'Š' => 0x8A | 'Ž' => 0x8E
  | _ => 0x3F

/-- Test-fixture encoder for whole strings. -/
def w1250Encode (s : String) : List Nat := s.toList.map w1250EncodeChar

/-- Fixture: a header carrying exactly the nine required columns. -/
def hdr9 : String :=
  "Kód ADM;Kód obce;Název obce;Kód části obce;Název části obce;Typ SO;Číslo domovní;PSČ;Platí Od"

/-- Fixture: a valid data row for `hdr9` with the given ADM code. -/
def mkRow9 (adm : Nat) : String :=
  toString adm ++ ";2;Obec;3;Cast;budova;4;5;2011-07-01T00:00:00"

/-- Fixture entry with a small declared size and one valid row. -/
def entryA : ZipEntry := ⟨5, .ok (w1250Encode (hdr9 ++ "\n" ++ mkRow9 1 ++ "\n"))⟩

/-- Fixture entry with a large declared size and one valid row. -/
def entryB : ZipEntry := ⟨1000, .ok (w1250Encode (hdr9 ++ "\n" ++ mkRow9 2 ++ "\n"))⟩

/-- Fixture entry whose single row has a non-numeric value in the
required-integer column `Kód ADM`. -/
def entryBad : ZipEntry :=
  ⟨7, .ok (w1250Encode (hdr9 ++ "\nabc;2;Obec;3;Cast;budova;4;5;2011-07-01T00:00:00\n"))⟩

/-- The record parsed from `mkRow9 a` under `hdr9`. -/
def recAdm (a : Nat) : Address :=
  { adm_code := a, town_code := 2, town := "Obec", city_part_code := none,
    city_part := none, prague_part_code := none, prague_part := none,
    town_part_code := 3, town_part := "Cast", street_code := none,
    street := none, object_type := "budova", number := 4,
    orientation_number := none, orientation_number_sign := none,
    zip_code := 5, location_x := none, location_y := none,
    valid_since := ⟨1309478400, 0⟩ }

/-- Fixture: a full 19-column data row (spec §8's concrete scenario) with
the optional city/Prague-part and orientation columns empty and the
street and coordinate columns populated. -/
def row19 : List String :=
  ["9382372", "568589", "Golčův Jeníkov", "", "", "", "", "123456",
   "Golčův Jeníkov", "789", "Nám. T. G. Masaryka", "č.p.", "110", "", "",
   "58282", "712.5", "1050.25", "2011-07-01T00:00:00"]

/-- The record parsed from `row19` under the `fieldNames` header. -/
def sampleAddress : Address :=
  { adm_code := 9382372, town_code := 568589, town := "Golčův Jeníkov",
    city_part_code := none, city_part := none, prague_part_code := none,
    prague_part := none, town_part_code := 123456,
    town_part := "Golčův Jeníkov", street_code := some 789,
    street := some "Nám. T. G. Masaryka", object_type := "č.p.",
    number := 110, orientation_number := none,
    orientation_number_sign := none, zip_code := 58282,
    location_x := some (.finite false 7125 (-1)),
    location_y := some (.finite false 105025 (-2)),
    valid_since := ⟨1309478400, 0⟩ }

/-- Fixture: the required columns as a header list. -/
def hdr9List : List String :=
  ["Kód ADM", "Kód obce", "Název obce", "Kód části obce",
   "Název části obce", "Typ SO", "Číslo domovní", "PSČ", "Platí Od"]

/-- Fixture: a data row for `hdr9List`. -/
def row9List : List String :=
  ["1", "2", "Obec", "3", "Cast", "budova", "4", "5", "2011-07-01T00:00:00"]

/-- Fixture: `hdr9List` without its `PSČ` column. -/
def hdr8List : List String :=
  ["Kód ADM", "Kód obce", "Název obce", "Kód části obce",
   "Název části obce", "Typ SO", "Číslo domovní", "Platí Od"]

/-- Fixture: a data row for `hdr8List`. -/
def row8List : List String :=
  ["1", "2", "Obec", "3", "Cast", "budova", "4", "2011-07-01T00:00:00"]

/-- Fixture: a permutation of the nine column indices (swaps the first
two columns). -/
def sigma9 : List Nat := [1, 0, 2, 3, 4, 5, 6, 7, 8]

/-- Reorder a record's cells by a list of column indices. -/
def applyPerm (σ : List Nat) (xs : List String) : List String :=
  σ.map (fun i => xs.getD i "")

/-- A cell string of the exact `YYYY-MM-DD` shape. -/
def isBareDate (s : String) : Bool :=
  match s.toList with
  | [a, b, c, d, e, f, g, h, i, j] =>
    a.isDigit && b.isDigit && c.isDigit && d.isDigit && e == '-' &&
    f.isDigit && g.isDigit && h == '-' && i.isDigit && j.isDigit
  | _ => false

/-- The optional-field law of the spec: an absent column or empty cell
yields `none`; a non-empty cell must coerce, and its value is kept. -/
def optLaw {β : Type} (cell : Option String) (v : Option β)
    (p : String → Option β) : Prop :=
  (cell = none ∨ cell = some "" → v = none) ∧
  (∀ s, cell = some s → s ≠ "" → ∃ x, p s = some x ∧ v = some x)

/-- Inversion for `Except.bind` returning `ok`. -/
theorem except_bind_ok {ε α β : Type} {x : Except ε α} {f : α → Except ε β} {b : β} :
    Except.bind x f = Except.ok b ↔ ∃ a, x = Except.ok a ∧ f a = Except.ok b := by
  cases x <;> simp [Except.bind]

/-- An `ok` required field pins down its source cell. -/
theorem reqField_ok {β : Type} {p : String → Option β} {pairs : List (String × String)}
    {name : String} {v : β} (h : reqField p pairs name = .ok v) :
    ∃ s, getCell pairs name = some s ∧ p s = some v := by
  unfold reqField at h
  split at h
  · exact absurd h (by simp)
  · rename_i s hg
    split at h
    · exact absurd h (by simp)
    · rename_i x hp
      exact ⟨s, hg, by rw [hp, Except.ok.inj h]⟩

/-- The optional-field law holds for every `ok` optional field. -/
theorem optField_ok {β : Type} {p : String → Option β} {pairs : List (String × String)}
    {name : String} {v : Option β} (h : optField p pairs name = .ok v) :
    optLaw (getCell pairs name) v p := by
  unfold optField at h
  split at h
  · rename_i hg
    rw [hg]
    exact ⟨fun _ => (Except.ok.inj h).symm, fun s hs _ => absurd hs (by simp)⟩
  · rename_i s hg
    rw [hg]
    split at h
    · rename_i hs
      refine ⟨fun _ => (Except.ok.inj h).symm, fun t ht hne => ?_⟩
      cases Option.some.inj ht
      exact absurd hs hne
    · rename_i hs
      split at h
      · exact absurd h (by simp)
      · rename_i x hp
        refine ⟨fun hc => ?_, fun t ht hne => ?_⟩
        · rcases hc with hc | hc
          · exact absurd hc (by simp)
          · exact absurd (Option.some.inj hc) hs
        · cases Option.some.inj ht
          exact ⟨x, hp, (Except.ok.inj h).symm⟩

/-- An optional field holding a value comes from a non-empty cell that
coerced to exactly that value. -/
theorem optField_ok_some {β : Type} {p : String → Option β} {pairs : List (String × String)}
    {name : String} {x : β} (h : optField p pairs name = .ok (some x)) :
    ∃ s, getCell pairs name = some s ∧ s ≠ "" ∧ p s = some x := by
  have hl := optField_ok h
  cases hg : getCell pairs name with
  | none => exact absurd (hl.1 (Or.inl hg)) (by simp)
  | some s =>
    by_cases hs : s = ""
    · subst hs
      exact absurd (hl.1 (Or.inr hg)) (by simp)
    · obtain ⟨y, hp, hv⟩ := hl.2 s hg hs
      exact ⟨s, rfl, hs, by rw [hp, ← Option.some.inj hv]⟩

/-- A found cell means the column name occurs among the header cells. -/
theorem getCell_some_mem {pairs : List (String × String)} {name s : String}
    (h : getCell pairs name = some s) : name ∈ pairs.map Prod.fst := by
  unfold getCell at h
  cases hf : pairs.find? (fun p => p.1 = name) with
  | none => rw [hf] at h; exact absurd h (by simp)
  | some pr =>
    have hp := List.find?_some hf
    have hm := List.mem_of_find?_eq_some hf
    simp only [decide_eq_true_eq] at hp
    rw [← hp]
    exact List.mem_map_of_mem Prod.fst hm

/-- Inversion of an `ok` row parse into the per-field parses. -/
theorem deserializePairs_ok_fields {pairs : List (String × String)} {a : Address}
    (h : deserializePairs pairs = .ok a) :
    (∃ u, dupCheck pairs = .ok u) ∧
    reqField parseU32 pairs "Kód ADM" = .ok a.adm_code ∧
    reqField parseU32 pairs "Kód obce" = .ok a.town_code ∧
    reqField some pairs "Název obce" = .ok a.town ∧
    optField parseU64 pairs "Kód MOMC" = .ok a.city_part_code ∧
    optField some pairs "Název MOMC" = .ok a.city_part ∧
    optField parseU64 pairs "Kód obvodu Prahy" = .ok a.prague_part_code ∧
    optField some pairs "Název obvodu Prahy" = .ok a.prague_part ∧
    reqField parseU32 pairs "Kód části obce" = .ok a.town_part_code ∧
    reqField some pairs "Název části obce" = .ok a.town_part ∧
    optField parseU32 pairs "Kód ulice" = .ok a.street_code ∧
    optField some pairs "Název ulice" = .ok a.street ∧
    reqField some pairs "Typ SO" = .ok a.object_type ∧
    reqField parseU32 pairs "Číslo domovní" = .ok a.number ∧
    optField parseU32 pairs "Číslo orientační" = .ok a.orientation_number ∧
    optField some pairs "Znak čísla orientačního" = .ok a.orientation_number_sign ∧
    reqField parseU32 pairs "PSČ" = .ok a.zip_code ∧
    optField parseF32 pairs "Souřadnice X" = .ok a.location_x ∧
    optField parseF32 pairs "Souřadnice Y" = .ok a.location_y ∧
    reqField address_date_format_deserialize pairs "Platí Od" = .ok a.valid_since := by
  unfold deserializePairs at h
  simp only [except_bind_ok] at h
  obtain ⟨u, hdup, adm, hadm, tc, htc, tn, htn, cpc, hcpc, cp, hcp, ppc, hppc, pp, hpp,
    tpc, htpc, tp, htp, sc, hsc, st, hst, ot, hot, num, hnum, onum, honum, osgn, hosgn,
    zc, hzc, lx, hlx, ly, hly, vs, hvs, hfin⟩ := h
  have ha := Except.ok.inj hfin
  subst ha
  exact ⟨⟨u, hdup⟩, hadm, htc, htn, hcpc, hcp, hppc, hpp, htpc, htp, hsc, hst, hot,
    hnum, honum, hosgn, hzc, hlx, hly, hvs⟩

/-- Inversion of `deserializeRow`: an `ok` result passed the length check
and deserialized the header/cell pairs. -/
theorem deserializeRow_ok {header row : List String} {a : Address}
    (h : deserializeRow header row = .ok a) :
    row.length = header.length ∧ deserializePairs (header.zip row) = .ok a := by
  unfold deserializeRow at h
  by_cases hl : row.length = header.length
  · rw [if_pos hl] at h; exact ⟨hl, h⟩
  · rw [if_neg hl] at h; exact absurd h (by simp)

/-- A column name absent from the header cells is never found. -/
theorem getCell_none_of_not_mem {pairs : List (String × String)} {name : String}
    (h : name ∉ pairs.map Prod.fst) : getCell pairs name = none := by
  unfold getCell
  cases hf : pairs.find? (fun p => p.1 = name) with
  | none => rfl
  | some pr =>
    have hp := List.find?_some hf
    have hm := List.mem_of_find?_eq_some hf
    simp only [decide_eq_true_eq] at hp
    exact absurd (hp ▸ List.mem_map_of_mem Prod.fst hm) h

/-- When every entry parses, the loop returns the concatenation of the
per-entry record lists, in enumeration order. -/
theorem parseEntriesAux_forall2 {entries : List ZipEntry} {ls : List (List Address)}
    (h : List.Forall₂ (fun e l => entryResult e = .ok l) entries ls) :
    parseEntriesAux entries = .ok ls.flatten := by
  induction h with
  | nil => rfl
  | cons he _ ih => simp [parseEntriesAux, he, ih, Except.bind]

/-- A successful loop means every entry parsed successfully. -/
theorem parseEntriesAux_ok_mem {entries : List ZipEntry} {l : List Address}
    (h : parseEntriesAux entries = .ok l) :
    ∀ e ∈ entries, ∃ r, entryResult e = .ok r := by
  induction entries generalizing l with
  | nil => intro e he; exact absurd he (by simp)
  | cons a t ih =>
    intro e he
    unfold parseEntriesAux at h
    rw [except_bind_ok] at h
    obtain ⟨ra, hra, h2⟩ := h
    rw [except_bind_ok] at h2
    obtain ⟨rt, hrt, _⟩ := h2
    rcases List.mem_cons.mp he with rfl | hm
    · exact ⟨ra, hra⟩
    · exact ih hrt e hm

/-- Conversely, if every entry parses then the loop succeeds. -/
theorem parseEntriesAux_ok_of_forall {entries : List ZipEntry}
    (h : ∀ e ∈ entries, ∃ r, entryResult e = .ok r) :
    ∃ l, parseEntriesAux entries = .ok l := by
  induction entries with
  | nil => exact ⟨[], rfl⟩
  | cons a t ih =>
    obtain ⟨ra, hra⟩ := h a (List.mem_cons_self a t)
    obtain ⟨lt, hlt⟩ := ih (fun e he => h e (List.mem_cons_of_mem a he))
    exact ⟨ra ++ lt, by simp [parseEntriesAux, hra, hlt, Except.bind]⟩

/-- One failing entry anywhere in the archive fails the whole loop. -/
theorem parseEntriesAux_error_of_mem {entries : List ZipEntry} {e : ZipEntry}
    (he : e ∈ entries) (hbad : ∀ l, entryResult e ≠ .ok l) :
    ∃ err, parseEntriesAux entries = .error err := by
  induction entries with
  | nil => exact absurd he (by simp)
  | cons a t ih =>
    rcases List.mem_cons.mp he with rfl | hm
    · cases hr : entryResult e with
      | error err => exact ⟨err, by simp [parseEntriesAux, hr, Except.bind]⟩
      | ok r => exact absurd hr (hbad r)
    · cases hr : entryResult a with
      | error err => exact ⟨err, by simp [parseEntriesAux, hr, Except.bind]⟩
      | ok r =>
        obtain ⟨err, herr⟩ := ih hm
        exact ⟨err, by simp [parseEntriesAux, hr, herr, Except.bind]⟩

/-- Processing a permutation of the entries yields a permutation of the
records: the result set does not depend on enumeration order. -/
theorem parseEntriesAux_perm {e₁ e₂ : List ZipEntry} (hp : e₁.Perm e₂) :
    ∀ {l₁ l₂ : List Address}, parseEntriesAux e₁ = .ok l₁ →
      parseEntriesAux e₂ = .ok l₂ → l₁.Perm l₂ := by
  induction hp with
  | nil =>
    intro l₁ l₂ h₁ h₂
    simp only [parseEntriesAux, Except.ok.injEq] at h₁ h₂
    rw [← h₁, ← h₂]
  | cons x hp ih =>
    intro l₁ l₂ h₁ h₂
    unfold parseEntriesAux at h₁ h₂
    rw [except_bind_ok] at h₁ h₂
    obtain ⟨rx, hrx, h₁⟩ := h₁
    rw [except_bind_ok] at h₁
    obtain ⟨t₁, ht₁, hfin₁⟩ := h₁
    obtain ⟨rx', hrx', h₂⟩ := h₂
    rw [except_bind_ok] at h₂
    obtain ⟨t₂, ht₂, hfin₂⟩ := h₂
    cases Except.ok.inj hfin₁
    cases Except.ok.inj hfin₂
    have hxx : rx = rx' := Except.ok.inj (hrx.symm.trans hrx')
    subst hxx
    exact List.Perm.append (List.Perm.refl rx) (ih ht₁ ht₂)
  | swap x y t =>
    intro l₁ l₂ h₁ h₂
    simp only [parseEntriesAux, except_bind_ok] at h₁ h₂
    obtain ⟨ry, hry, z, ⟨rx, hrx, rt, hrt, hz⟩, hfin⟩ := h₁
    obtain ⟨rx', hrx', z', ⟨ry', hry', rt', hrt', hz'⟩, hfin'⟩ := h₂
    cases Except.ok.inj hz
    cases Except.ok.inj hfin
    cases Except.ok.inj hz'
    cases Except.ok.inj hfin'
    have h1 : rx = rx' := Except.ok.inj (hrx.symm.trans hrx')
    have h2 : ry = ry' := Except.ok.inj (hry.symm.trans hry')
    have h3 : rt = rt' := Except.ok.inj (hrt.symm.trans hrt')
    subst h1; subst h2; subst h3
    rw [← List.append_assoc, ← List.append_assoc]
    exact List.Perm.append List.perm_append_comm (List.Perm.refl rt)
  | trans h₁₂ h₂₃ ih₁ ih₂ =>
    intro l₁ l₂ ha hb
    obtain ⟨lm, hlm⟩ := parseEntriesAux_ok_of_forall
      (fun e he => parseEntriesAux_ok_mem ha e (h₁₂.mem_iff.mpr he))
    exact (ih₁ ha hlm).trans (ih₂ hlm hb)

/-- Errors of one entry are ZIP or CSV errors (never a decoding error). -/
theorem entryResult_error_kind {e : ZipEntry} {err : AddressError}
    (h : entryResult e = .error err) :
    (∃ z, err = AddressError.zip z) ∨ (∃ c, err = AddressError.csv c) := by
  unfold entryResult at h
  split at h
  · exact Or.inl ⟨_, (Except.error.inj h).symm⟩
  · split at h
    · exact Or.inr ⟨_, (Except.error.inj h).symm⟩
    · exact absurd h (by simp)

/-- Errors of the whole loop are ZIP or CSV errors. -/
theorem parseEntriesAux_error_kind {entries : List ZipEntry} {err : AddressError}
    (h : parseEntriesAux entries = .error err) :
    (∃ z, err = AddressError.zip z) ∨ (∃ c, err = AddressError.csv c) := by
  induction entries with
  | nil => exact absurd h (by simp [parseEntriesAux])
  | cons a t ih =>
    unfold parseEntriesAux at h
    cases hr : entryResult a with
    | error e2 =>
      rw [hr] at h
      simp only [Except.bind, Except.error.injEq] at h
      subst h
      exact entryResult_error_kind hr
    | ok r =>
      rw [hr] at h
      cases ht : parseEntriesAux t with
      | error e2 =>
        rw [ht] at h
        simp only [Except.bind, Except.error.injEq] at h
        subst h
        exact ih ht
      | ok lt =>
        rw [ht] at h
        simp [Except.bind] at h

/-- `find?` returns the head of the filtered list. -/
theorem find?_eq_head?_filter {α : Type} (p : α → Bool) (l : List α) :
    l.find? p = (l.filter p).head? := by
  induction l with
  | nil => rfl
  | cons a t ih =>
    by_cases hp : p a
    · rw [List.find?_cons_of_pos _ hp, List.filter_cons_of_pos hp, List.head?_cons]
    · rw [List.find?_cons_of_neg _ hp, List.filter_cons_of_neg hp]
      exact ih

/-- Under duplicate-free keys at most one pair carries a given key. -/
theorem length_filter_key_le_one {l : List (String × String)} {n : String}
    (hnd : (l.map Prod.fst).Nodup) :
    (l.filter (fun x => x.1 = n)).length ≤ 1 := by
  induction l with
  | nil => simp
  | cons a t ih =>
    simp only [List.map_cons, List.nodup_cons] at hnd
    by_cases hp : a.1 = n
    · have hnil : t.filter (fun x => decide (x.1 = n)) = [] := by
        rw [List.filter_eq_nil_iff]
        intro x hx hdx
        simp only [decide_eq_true_eq] at hdx
        exact hnd.1 (by rw [hp, ← hdx]; exact List.mem_map_of_mem Prod.fst hx)
      simp [hp, hnil]
    · simp only [List.filter_cons, decide_eq_true_eq, if_neg hp]
      exact ih hnd.2

/-- Key lookup is invariant under permutation when keys are distinct. -/
theorem find?_key_perm {l₁ l₂ : List (String × String)} {n : String}
    (hp : l₁.Perm l₂) (hnd : (l₁.map Prod.fst).Nodup) :
    l₁.find? (fun x => x.1 = n) = l₂.find? (fun x => x.1 = n) := by
  rw [find?_eq_head?_filter, find?_eq_head?_filter]
  have hf := hp.filter (fun x => decide (x.1 = n))
  have h1 := length_filter_key_le_one (n := n) hnd
  cases e : l₁.filter (fun x => decide (x.1 = n)) with
  | nil =>
    rw [e] at hf
    rw [List.perm_nil.mp hf.symm]
  | cons a t =>
    rw [e] at hf h1
    cases t with
    | cons b s => simp at h1
    | nil =>
      rw [List.perm_singleton.mp hf.symm]

/-- Cell lookup is invariant under permutation of the header/cell pairs
when the header names are distinct. -/
theorem getCell_perm {l₁ l₂ : List (String × String)} {n : String}
    (hp : l₁.Perm l₂) (hnd : (l₁.map Prod.fst).Nodup) :
    getCell l₁ n = getCell l₂ n := by
  unfold getCell
  rw [find?_key_perm hp hnd]

/-- The duplicate-column check only counts occurrences, so it is
permutation-invariant. -/
theorem dupCheck_perm {l₁ l₂ : List (String × String)} (hp : l₁.Perm l₂) :
    dupCheck l₁ = dupCheck l₂ := by
  unfold dupCheck
  have hc : ∀ m : String, l₁.countP (fun p => p.1 = m) = l₂.countP (fun p => p.1 = m) :=
    fun m => List.Perm.countP_eq _ hp
  have hfun : (fun m => decide (2 ≤ l₁.countP (fun p => p.1 = m))) =
      (fun m => decide (2 ≤ l₂.countP (fun p => p.1 = m))) :=
    funext fun m => by rw [hc m]
  rw [hfun]

/-- `reqField` depends on the pairs only through `getCell`. -/
theorem reqField_congr {β : Type} {p : String → Option β} {l₁ l₂ : List (String × String)}
    {n : String} (h : getCell l₁ n = getCell l₂ n) : reqField p l₁ n = reqField p l₂ n := by
  unfold reqField
  rw [h]

/-- `optField` depends on the pairs only through `getCell`. -/
theorem optField_congr {β : Type} {p : String → Option β} {l₁ l₂ : List (String × String)}
    {n : String} (h : getCell l₁ n = getCell l₂ n) : optField p l₁ n = optField p l₂ n := by
  unfold optField
  rw [h]

set_option maxRecDepth 8000 in
/-- Row deserialization is invariant under permutation of the
header/cell pairs when header names are distinct (by-name lookup, not
positional). -/
theorem deserializePairs_perm {l₁ l₂ : List (String × String)} (hp : l₁.Perm l₂)
    (hnd : (l₁.map Prod.fst).Nodup) : deserializePairs l₁ = deserializePairs l₂ := by
  have hg : ∀ n, getCell l₁ n = getCell l₂ n := fun n => getCell_perm hp hnd
  unfold deserializePairs
  rw [dupCheck_perm hp]
  simp only [show ∀ (β : Type) (q : String → Option β) n, reqField q l₁ n = reqField q l₂ n
      from fun β q n => reqField_congr (hg n),
    show ∀ (β : Type) (q : String → Option β) n, optField q l₁ n = optField q l₂ n
      from fun β q n => optField_congr (hg n)]

/-- Reading a list back off by its indices is the identity. -/
theorem map_getD_range (l : List String) :
    (List.range l.length).map (fun i => l.getD i "") = l := by
  induction l with
  | nil => simp
  | cons a t ih =>
    rw [List.length_cons, List.range_succ_eq_map, List.map_cons, List.map_map]
    simp only [List.getD_cons_zero, Function.comp_def, List.getD_cons_succ]
    rw [ih]

/-- Zipping equal-length lists enumerates their columns. -/
theorem zip_eq_range_map (h r : List String) (hlen : r.length = h.length) :
    h.zip r = (List.range h.length).map (fun i => (h.getD i "", r.getD i "")) := by
  induction h generalizing r with
  | nil => simp
  | cons a t ih =>
    cases r with
    | nil => simp at hlen
    | cons b s =>
      simp only [List.length_cons] at hlen
      have hlen' : s.length = t.length := by omega
      rw [List.zip_cons_cons, ih s hlen', List.length_cons, List.range_succ_eq_map,
        List.map_cons, List.map_map]
      simp only [List.getD_cons_zero, Function.comp_def, List.getD_cons_succ]

/-- A column permutation of a list is a permutation of the list. -/
theorem applyPerm_perm (σ : List Nat) (l : List String)
    (hσ : σ.Perm (List.range l.length)) : (applyPerm σ l).Perm l := by
  unfold applyPerm
  have hm := hσ.map (fun i => l.getD i "")
  rw [map_getD_range] at hm
  exact hm

/-- Zipping two identically permuted lists permutes their zip pairs. -/
theorem applyPerm_zip (σ : List Nat) (h r : List String) :
    (applyPerm σ h).zip (applyPerm σ r) = σ.map (fun i => (h.getD i "", r.getD i "")) := by
  unfold applyPerm
  rw [List.zip_map']

/-- Appending the `Z` marker to a bare `YYYY-MM-DD` cell still fails
chrono's parse: after the date part the parser requires a `T`/`t`/space
separator and a time, but finds the appended `Z`. -/
theorem bareDate_deserialize_none {s : String} (h : isBareDate s = true) :
    address_date_format_deserialize s = none := by
  unfold isBareDate at h
  split at h
  case _ c0 c1 c2 c3 c4 c5 c6 c7 c8 c9 heq =>
    simp only [Bool.and_eq_true, beq_iff_eq] at h
    obtain ⟨⟨⟨⟨⟨⟨⟨⟨⟨h0, h1⟩, h2⟩, h3⟩, h4⟩, h5⟩, h6⟩, h7⟩, h8⟩, h9⟩ := h
    subst h4
    subst h7
    have hz : (s ++ "Z").toList = s.toList ++ ['Z'] := by
      simp [String.toList, String.data_append]
    unfold address_date_format_deserialize chronoDateTimeUtcFromStr
    rw [hz, heq]
    simp [parse4Digits, parse2Digits, digitVal, expectChar, h0, h1, h2, h3, h5, h6, h8, h9]
  case _ => exact absurd h (by simp)

/-- C1: if any entry of the archive fails to parse (structural error,
missing/extra columns, or an uncoercible cell), `parse_addresses_from_csv`
returns an error and no collection of records — no subset of records from
other valid entries or rows is returned. -/
theorem c1_row_failure_fails_whole_archive (entries : List ZipEntry) (e : ZipEntry)
    (he : e ∈ entries) (hbad : ∀ l, entryResult e ≠ .ok l) :
    ∃ err, parse_addresses_from_csv (.ok entries) = .error err :=
  parseEntriesAux_error_of_mem he hbad

/-- C1 witness: an archive whose second entry has a non-numeric value in
the required-integer column `Kód ADM` fails as a whole. -/
theorem c1_witness :
    ∃ err, parse_addresses_from_csv (.ok [entryA, entryBad]) = .error err :=
  c1_row_failure_fails_whole_archive [entryA, entryBad] entryBad
    (List.mem_cons_of_mem _ (List.mem_cons_self _ _))
    (fun l hl => by
      rw [show entryResult entryBad = .error (.csv (.invalidField "Kód ADM" "abc"))
        from by decide] at hl
      exact Except.noConfusion hl)

/-- C2 counterexample: the validity-date deserializer does not map the
cell `"2011-07-01"` to the instant 2011-07-01T00:00:00Z; appending the
`Z` marker leaves `"2011-07-01Z"`, which chrono's
`DateTime::<Utc>::from_str` rejects for lack of a time part, so the row
fails instead. -/
theorem c2_counterexample :
    address_date_format_deserialize "2011-07-01" = none ∧
    address_date_format_deserialize "2011-07-01" ≠ some ⟨1309478400, 0⟩ := by
  exact ⟨by decide, by decide⟩

/-- C2 (amended): the deserializer maps the full date-time cell
`"2011-07-01T00:00:00"` (the shape the source data actually carries) to
the UTC instant 2011-07-01T00:00:00Z (epoch second 1309478400), and every
cell of the bare `YYYY-MM-DD` shape fails the row rather than
defaulting. -/
theorem c2_datetime_parses_and_bare_date_fails :
    address_date_format_deserialize "2011-07-01T00:00:00" = some ⟨1309478400, 0⟩ ∧
    ∀ s, isBareDate s = true → address_date_format_deserialize s = none :=
  ⟨by decide, fun _ hs => bareDate_deserialize_none hs⟩

/-- C2 witness: the amended law applied to the concrete bare date
`"2024-05-31"`. -/
theorem c2_witness :
    isBareDate "2024-05-31" = true ∧
    address_date_format_deserialize "2024-05-31" = none :=
  ⟨by decide, c2_datetime_parses_and_bare_date_fails.2 "2024-05-31" (by decide)⟩

/-- C3: for every optional field of `Address` and every row that parses,
an empty (or absent) source cell yields `none`, a non-empty cell parses to
the field's declared type and is kept as `some`, and an absent value is
never coerced to zero or to the empty string (the string-typed optional
fields never hold `some ""`). -/
theorem c3_optional_field_laws (header row : List String) (a : Address)
    (h : deserializeRow header row = .ok a) :
    optLaw (getCell (header.zip row) "Kód MOMC") a.city_part_code parseU64 ∧
    optLaw (getCell (header.zip row) "Název MOMC") a.city_part some ∧
    optLaw (getCell (header.zip row) "Kód obvodu Prahy") a.prague_part_code parseU64 ∧
    optLaw (getCell (header.zip row) "Název obvodu Prahy") a.prague_part some ∧
    optLaw (getCell (header.zip row) "Kód ulice") a.street_code parseU32 ∧
    optLaw (getCell (header.zip row) "Název ulice") a.street some ∧
    optLaw (getCell (header.zip row) "Číslo orientační") a.orientation_number parseU32 ∧
    optLaw (getCell (header.zip row) "Znak čísla orientačního") a.orientation_number_sign some ∧
    optLaw (getCell (header.zip row) "Souřadnice X") a.location_x parseF32 ∧
    optLaw (getCell (header.zip row) "Souřadnice Y") a.location_y parseF32 ∧
    a.city_part ≠ some "" ∧ a.prague_part ≠ some "" ∧ a.street ≠ some "" ∧
    a.orientation_number_sign ≠ some "" := by
  obtain ⟨hlen, hp⟩ := deserializeRow_ok h
  obtain ⟨_, _, _, _, hcpc, hcp, hppc, hpp, _, _, hsc, hst, _, _, honum, hosgn, _,
    hlx, hly, _⟩ := deserializePairs_ok_fields hp
  refine ⟨optField_ok hcpc, optField_ok hcp, optField_ok hppc, optField_ok hpp,
    optField_ok hsc, optField_ok hst, optField_ok honum, optField_ok hosgn,
    optField_ok hlx, optField_ok hly, ?_, ?_, ?_, ?_⟩
  · intro hc
    rw [hc] at hcp
    obtain ⟨s, _, hne, hps⟩ := optField_ok_some hcp
    exact hne (Option.some.inj hps)
  · intro hc
    rw [hc] at hpp
    obtain ⟨s, _, hne, hps⟩ := optField_ok_some hpp
    exact hne (Option.some.inj hps)
  · intro hc
    rw [hc] at hst
    obtain ⟨s, _, hne, hps⟩ := optField_ok_some hst
    exact hne (Option.some.inj hps)
  · intro hc
    rw [hc] at hosgn
    obtain ⟨s, _, hne, hps⟩ := optField_ok_some hosgn
    exact hne (Option.some.inj hps)

/-- C3 witness: in the parsed 19-column sample row, the empty `Kód MOMC`
cell became `none` and the street field never holds `some ""`. -/
theorem c3_witness :
    sampleAddress.city_part_code = none ∧ sampleAddress.street ≠ some "" := by
  have h := c3_optional_field_laws fieldNames row19 sampleAddress (by decide)
  exact ⟨h.1.1 (Or.inr (by decide)), h.2.2.2.2.2.2.2.2.2.2.2.2.1⟩

/-- C4: for an archive whose entries all parse, the result is the ordered
union of the per-entry record lists, its length is the sum of the
per-entry row counts (so entries of 10 and 1000 rows yield 1010 records),
and processing any permutation of the entries yields the same record set
up to order. -/
theorem c4_union_and_order_independence (entries entries' : List ZipEntry)
    (ls : List (List Address))
    (hok : List.Forall₂ (fun e l => entryResult e = .ok l) entries ls)
    (hperm : entries.Perm entries') :
    parse_addresses_from_csv (.ok entries) = .ok ls.flatten ∧
    ls.flatten.length = (ls.map List.length).sum ∧
    ∃ l', parse_addresses_from_csv (.ok entries') = .ok l' ∧ l'.Perm ls.flatten := by
  have h1 : parseEntriesAux entries = .ok ls.flatten := parseEntriesAux_forall2 hok
  refine ⟨h1, List.length_flatten ls, ?_⟩
  have hmem : ∀ e ∈ entries', ∃ r, entryResult e = .ok r :=
    fun e he => parseEntriesAux_ok_mem h1 e (hperm.mem_iff.mpr he)
  obtain ⟨l', hl'⟩ := parseEntriesAux_ok_of_forall hmem
  exact ⟨l', hl', parseEntriesAux_perm hperm.symm hl' h1⟩

/-- C4 witness: a two-entry archive parses to the union of both entries'
records, and processing the entries in reversed order yields the same
records up to order. -/
theorem c4_witness :
    parse_addresses_from_csv (.ok [entryA, entryB]) = .ok [recAdm 1, recAdm 2] ∧
    ∃ l', parse_addresses_from_csv (.ok [entryB, entryA]) = .ok l' ∧
      l'.Perm [recAdm 1, recAdm 2] := by
  have hf : List.Forall₂ (fun e l => entryResult e = .ok l)
      [entryA, entryB] [[recAdm 1], [recAdm 2]] :=
    List.Forall₂.cons (by decide) (List.Forall₂.cons (by decide) List.Forall₂.nil)
  have h := c4_union_and_order_independence [entryA, entryB] [entryB, entryA]
    [[recAdm 1], [recAdm 2]] hf (List.Perm.swap entryB entryA [])
  exact ⟨h.1, h.2.2⟩

/-- C5: cells are assigned to `Address` fields by exact header-name
lookup, not positional index — permuting the columns (header cell
together with its data cells) of a duplicate-free header leaves the
parsed record unchanged. -/
theorem c5_column_permutation_invariance (σ : List Nat) (header row : List String)
    (hσ : σ.Perm (List.range header.length)) (hnd : header.Nodup)
    (hlen : row.length = header.length) :
    deserializeRow (applyPerm σ header) (applyPerm σ row) = deserializeRow header row := by
  have hlenσ : (applyPerm σ row).length = (applyPerm σ header).length := by
    simp [applyPerm]
  have hpairs : ((applyPerm σ header).zip (applyPerm σ row)).Perm (header.zip row) := by
    rw [applyPerm_zip, zip_eq_range_map header row hlen]
    exact hσ.map _
  have hkeys : (((applyPerm σ header).zip (applyPerm σ row)).map Prod.fst).Nodup := by
    rw [List.map_fst_zip _ _ (le_of_eq hlenσ.symm)]
    exact (applyPerm_perm σ header hσ).nodup_iff.mpr hnd
  unfold deserializeRow
  rw [if_pos hlenσ, if_pos hlen]
  exact deserializePairs_perm hpairs hkeys

/-- C5 witness: swapping the first two columns of the nine-column fixture
row leaves the parsed record unchanged. -/
theorem c5_witness :
    deserializeRow (applyPerm sigma9 hdr9List) (applyPerm sigma9 row9List) =
      deserializeRow hdr9List row9List :=
  c5_column_permutation_invariance sigma9 hdr9List row9List (by decide) (by decide) (by decide)

/-- C6 counterexample: the work distributor of the spec does not exist in
the source — `parse_addresses_from_csv` processes entries in enumeration
(index) order, so on an archive whose first entry is the smaller one its
result differs from processing the entries sorted by declared size
descending. -/
theorem c6_counterexample :
    parse_addresses_from_csv (.ok [entryA, entryB]) = .ok [recAdm 1, recAdm 2] ∧
    parseEntriesAux (specSortBySizeDesc [entryA, entryB]) = .ok [recAdm 2, recAdm 1] ∧
    parse_addresses_from_csv (.ok [entryA, entryB]) ≠
      parseEntriesAux (specSortBySizeDesc [entryA, entryB]) :=
  ⟨by decide, by decide, by decide⟩

/-- C6 (amended): entries are decoded and parsed sequentially in
enumeration (index) order, regardless of their declared sizes; no
size-descending reordering happens before dispatch. -/
theorem c6_enumeration_order (e₁ e₂ : ZipEntry) (l₁ l₂ : List Address)
    (h₁ : entryResult e₁ = .ok l₁) (h₂ : entryResult e₂ = .ok l₂) :
    parse_addresses_from_csv (.ok [e₁, e₂]) = .ok (l₁ ++ l₂) := by
  show parseEntriesAux [e₁, e₂] = .ok (l₁ ++ l₂)
  simp [parseEntriesAux, h₁, h₂, Except.bind]

/-- C6 witness: the small-then-large fixture archive parses in
enumeration order. -/
theorem c6_witness :
    parse_addresses_from_csv (.ok [entryA, entryB]) = .ok ([recAdm 1] ++ [recAdm 2]) :=
  c6_enumeration_order entryA entryB [recAdm 1] [recAdm 2] (by decide) (by decide)

/-- C7: every record of a successful parse has all required columns
present (their header names occur in the header); a row whose required
column is missing never yields a partially populated record — its row
fails, and a failing entry fails the whole parse. -/
theorem c7_required_fields_total (header row : List String) (a : Address) (n : String) :
    (deserializeRow header row = .ok a → ∀ m ∈ requiredNames, m ∈ header) ∧
    (n ∈ requiredNames → n ∉ header → deserializeRow header row ≠ .ok a) ∧
    (∀ entries e, e ∈ entries → (∀ l, entryResult e ≠ .ok l) →
      ∃ err, parse_addresses_from_csv (.ok entries) = .error err) := by
  have part1 : deserializeRow header row = .ok a → ∀ m ∈ requiredNames, m ∈ header := by
    intro h m hm
    obtain ⟨hlen, hp⟩ := deserializeRow_ok h
    obtain ⟨_, hadm, htc, htn, _, _, _, _, htpc, htp, _, _, hot, hnum, _, _, hzc, _, _,
      hvs⟩ := deserializePairs_ok_fields hp
    have keyOf : ∀ {β : Type} {p : String → Option β} {nm : String} {v : β},
        reqField p (header.zip row) nm = .ok v → nm ∈ header := by
      intro β p nm v hr
      obtain ⟨s, hg, _⟩ := reqField_ok hr
      have hmem := getCell_some_mem hg
      rwa [List.map_fst_zip header row (le_of_eq hlen.symm)] at hmem
    simp only [requiredNames, List.mem_cons, List.not_mem_nil, or_false] at hm
    rcases hm with rfl | rfl | rfl | rfl | rfl | rfl | rfl | rfl | rfl
    · exact keyOf hadm
    · exact keyOf htc
    · exact keyOf htn
    · exact keyOf htpc
    · exact keyOf htp
    · exact keyOf hot
    · exact keyOf hnum
    · exact keyOf hzc
    · exact keyOf hvs
  refine ⟨part1, fun hn hnh hok => hnh (part1 hok n hn), ?_⟩
  exact fun entries e he hbad => parseEntriesAux_error_of_mem he hbad

/-- C7 witness: a header lacking the required `PSČ` column cannot yield a
record. -/
theorem c7_witness :
    ("PSČ" ∈ requiredNames) ∧ ("PSČ" ∉ hdr8List) ∧
    deserializeRow hdr8List row8List ≠ .ok sampleAddress := by
  refine ⟨by decide, by decide, ?_⟩
  exact (c7_required_fields_total hdr8List row8List sampleAddress "PSČ").2.1
    (by decide) (by decide)

/-- C8: a byte source that is not a valid ZIP container fails
`parse_addresses_from_csv` with an archive-format (ZIP) error, and no
records are returned. -/
theorem c8_invalid_archive_errors (e : ZipError) :
    parse_addresses_from_csv (.error e) = .error (.zip e) ∧
    ∀ l, parse_addresses_from_csv (.error e) ≠ .ok l :=
  ⟨rfl, fun _ h => Except.noConfusion h⟩

/-- C8 witness: the law at a concrete ZIP-open failure. -/
theorem c8_witness :
    parse_addresses_from_csv (.error (.fault "not a zip")) =
      .error (.zip (.fault "not a zip")) ∧
    parse_addresses_from_csv (.error (.fault "not a zip")) ≠ .ok [] :=
  ⟨(c8_invalid_archive_errors (.fault "not a zip")).1,
   (c8_invalid_archive_errors (.fault "not a zip")).2 []⟩

/-- C10 counterexample: byte 0x81 has no mapping in Microsoft's cp1250,
yet the decoder (per the WHATWG windows-1250 index used by
`encoding_rs`) maps it to the C1 control U+0081, not to the Unicode
replacement character U+FFFD. -/
theorem c10_undefined_byte_not_replacement :
    windows1250Decode [0x81] = [Char.ofNat 0x81] ∧
    windows1250Decode [0x81] ≠ [Char.ofNat 0xFFFD] :=
  ⟨by decide, by decide⟩

/-- C10 (amended): the byte-decoding stage is total and never produces an
error — every buffer decodes to exactly one character per byte, the five
bytes undefined in Microsoft's cp1250 decode to the corresponding C1
controls (never U+FFFD), and `parse_addresses_from_csv` only ever fails
with a ZIP or CSV error, never a character-decoding error. -/
theorem c10_decode_total_never_errors (bs : List Nat) (b : Nat)
    (hb : b ∈ [0x81, 0x83, 0x88, 0x90, 0x98]) :
    (windows1250Decode bs).length = bs.length ∧
    windows1250DecodeByte b = Char.ofNat b ∧
    (∀ source err, parse_addresses_from_csv source = .error err →
      (∃ z, err = AddressError.zip z) ∨ (∃ c, err = AddressError.csv c)) := by
  refine ⟨by simp [windows1250Decode], ?_, ?_⟩
  · simp only [List.mem_cons, List.not_mem_nil, or_false] at hb
    rcases hb with rfl | rfl | rfl | rfl | rfl <;> decide
  · intro source err h
    cases source with
    | error e => exact Or.inl ⟨e, (Except.error.inj h).symm⟩
    | ok entries => exact parseEntriesAux_error_kind h

/-- C10 witness: the amended law at byte 0x90 and a two-byte buffer. -/
theorem c10_witness :
    (windows1250Decode [0x90, 65]).length = 2 ∧
    windows1250DecodeByte 0x90 = Char.ofNat 0x90 := by
  have h := c10_decode_total_never_errors [0x90, 65] 0x90 (by decide)
  exact ⟨h.1, h.2.1⟩
